import Mathlib

/-!
# Verification of the LAMMPS test-harness glue scripts

A shallow embedding of the Python test-harness code of the repository:

* `test/testrunner/test_examples.py` — the 4-mode test-case synthesizer
  (serial, parallel, parallel_omp, serial_valgrind) plus the directory
  discoverer and `SkipTest`;
* `testing/test_examples.py` — the earlier 2-mode variant of the same
  synthesizer and discoverer;
* `test/testrunner/lammps_testing.py` — the `run_script` helper with
  `force_mpi` / `force_openmp` flags that captures output into log files;
* `tools/gen_styles.py` — the style-list generation utility.

Python string primitives (`str.split`, `str.join`, `str.islower`,
`str.title`, `str.startswith`, `str.strip`) are embedded directly as
structurally recursive Lean functions over `List Char`, restricted to the
ASCII strings the harness actually manipulates (a character is "cased"
exactly when it is an ASCII letter).

External effects are made explicit: the subprocess interface is a
parameter `call : List String → String → Int` mapping an argument vector
and a working directory to the child's exit code, and file writes
performed by the Python code itself are collected in a `filesWritten`
trace.
-/

/-- Python `s.split(sep)` for a single-character separator: accumulates the
current field and emits it at each separator; an empty string yields `[""]`,
exactly as in Python. -/
def pySplitAux (sep : Char) : List Char → List Char → List String
  | [], acc => [⟨acc.reverse⟩]
  | c :: cs, acc =>
    if c = sep then ⟨acc.reverse⟩ :: pySplitAux sep cs []
    else pySplitAux sep cs (c :: acc)

/-- Python `s.split(sep)` (single-character separator, no maxsplit). -/
def pySplit (sep : Char) (s : String) : List String :=
  pySplitAux sep s.data []

/-- Python `sep.join(xs)`. -/
def pyJoin (sep : String) : List String → String
  | [] => ""
  | [x] => x
  | x :: y :: xs => x ++ sep ++ pyJoin sep (y :: xs)

/-- Python `s.startswith(pre)`. -/
def pyStartswith (s pre : String) : Bool :=
  pre.data.isPrefixOf s.data

/-- Python `s.islower()` restricted to ASCII: there is at least one cased
(ASCII-letter) character and every cased character is lowercase. -/
def pyIslower (s : String) : Bool :=
  s.data.any (fun c => c.isAlpha) && s.data.all (fun c => !c.isAlpha || c.isLower)

/-- Helper for `pyTitle`: the boolean argument records whether the previous
character was cased (an ASCII letter). -/
def pyTitleAux : Bool → List Char → List Char
  | _, [] => []
  | prevCased, c :: cs =>
    if c.isAlpha then
      (if prevCased then c.toLower else c.toUpper) :: pyTitleAux true cs
    else
      c :: pyTitleAux false cs

/-- Python `s.title()` restricted to ASCII: the first letter of every maximal
letter run is uppercased, the rest are lowercased. -/
def pyTitle (s : String) : String :=
  ⟨pyTitleAux false s.data⟩

/-- `os.path.join a b` for an absolute `a` and a relative single component
`b` on POSIX. -/
def pathJoin (a b : String) : String :=
  a ++ "/" ++ b

namespace Testrunner

/-!
Embedding of `test/testrunner/test_examples.py`.
-/

/-- The four execution modes generated by `CreateLAMMPSTestCase` in
`test/testrunner/test_examples.py`: one test method per mode per script. -/
inductive Mode
  | serial
  | parallel
  | parallel_omp
  | serial_valgrind
deriving DecidableEq, Repr

/-- All four modes, in the order the loop body adds the methods. -/
def allModes : List Mode :=
  [Mode.serial, Mode.parallel, Mode.parallel_omp, Mode.serial_valgrind]

/-- The suffix appended to the derived script name in each generated
method name (`"test_" + name + "_serial"` and so on). -/
def modeSuffix : Mode → String
  | Mode.serial => "_serial"
  | Mode.parallel => "_parallel"
  | Mode.parallel_omp => "_parallel_omp"
  | Mode.serial_valgrind => "_serial_valgrind"

/-- `name = '_'.join(script_name.split('.')[1:])` — the derived name of a
script, joining all dot-separated tokens after the leading `in` with
underscores. -/
def scriptBase (script_name : String) : String :=
  pyJoin "_" ((pySplit '.' script_name).drop 1)

/-- The generated method name for a (script, mode) pair:
`"test_" + name + suffix`. -/
def methodKey (script_name : String) (m : Mode) : String :=
  "test_" ++ scriptBase script_name ++ modeSuffix m

/-- The arguments each generated closure passes to `run_script`
(`test_serial_run` uses the defaults `nprocs=1, nthreads=1, launcher=[]`;
`test_parallel_run` passes `nprocs=4`; `test_parallel_omp_run` passes
`nthreads=4`; `test_serial_valgrind_run` passes the valgrind launcher). -/
structure UnitSpec where
  script : String
  nprocs : Nat
  nthreads : Nat
  launcher : List String
deriving DecidableEq, Repr

/-- The `valgrind_exec` launcher list built in `test_serial_valgrind`. -/
def valgrindLauncher (lammps_dir name : String) : List String :=
  ["valgrind", "--leak-check=full", "--xml=yes",
   "--xml-file=" ++ name ++ ".memcheck",
   "--suppressions=" ++ pathJoin (pathJoin (pathJoin lammps_dir "tools") "valgrind") "lammps.supp",
   "--suppressions=/usr/share/openmpi/openmpi-valgrind.supp"]

/-- The `run_script` arguments used by the generated method of each mode. -/
def unitSpec (lammps_dir script_name : String) : Mode → UnitSpec
  | Mode.serial => ⟨script_name, 1, 1, []⟩
  | Mode.parallel => ⟨script_name, 4, 1, []⟩
  | Mode.parallel_omp => ⟨script_name, 1, 4, []⟩
  | Mode.serial_valgrind => ⟨script_name, 1, 1, valgrindLauncher lammps_dir (scriptBase script_name)⟩

/-- The four method-dictionary entries the loop body of
`CreateLAMMPSTestCase` adds for one script, in source order. -/
def unitsForScript (lammps_dir script_name : String) : List (String × UnitSpec) :=
  allModes.map (fun m => (methodKey script_name m, unitSpec lammps_dir script_name m))

/-- The sequence of test-method assignments performed by the
`for script_name in script_names` loop of `CreateLAMMPSTestCase`
(excluding the `setUp` entry). -/
def createMethods (lammps_dir : String) : List String → List (String × UnitSpec)
  | [] => []
  | s :: rest => unitsForScript lammps_dir s ++ createMethods lammps_dir rest

/-- The name of the generated class:
`type(testcase_name.title() + "TestCase", ...)`. -/
def createClassName (testcase_name : String) : String :=
  pyTitle testcase_name ++ "TestCase"

/-- The argument vector built by `LAMMPSTestCase.run_script` in
`test/testrunner/test_examples.py`: the `nprocs > 1` branch launches under
`mpirun`; the `nthreads > 1` branch launches under `mpirun` with
`-sf omp -pk omp <nthreads>`; otherwise the plain binary is run. -/
def run_script_cmd (binary script_name : String) (nprocs nthreads : Nat)
    (screen : Bool) (launcher : List String) : List String :=
  let output_options := if screen then [] else ["-screen", "none"]
  let exe := launcher ++ [binary]
  if nprocs > 1 then
    ["mpirun", "-np", toString nprocs] ++ exe ++ ["-in", script_name] ++ output_options
  else if nthreads > 1 then
    ["mpirun", "-np", toString nprocs] ++ exe ++
      ["-sf", "omp", "-pk", "omp", toString nthreads, "-in", script_name] ++ output_options
  else
    exe ++ ["-in", script_name] ++ output_options

/-- A test method: the `run_script` arguments of its body together with an
optional skip marker (the reason string of `unittest.skip`). -/
structure TestMethod where
  skipReason : Option String
  spec : UnitSpec
deriving DecidableEq, Repr

/-- Outcome of running one generated test unit. -/
inductive UnitResult
  | passed
  | failed
  | skipres
deriving DecidableEq, Repr

/-- Executing one generated test unit under the test framework, given the
subprocess interface `call` (argument vector and working directory to exit
code). The second component collects the argument vectors of the
subprocesses actually spawned.

The body (`rc = self.run_script(...); self.assertEqual(rc, 0)`) is from
`test/testrunner/test_examples.py`. Modelled from the spec: the framework
semantics of `unittest.skip` (the wrapped body of a skip-marked unit is
never entered, the unit is reported skipped) and of `assertEqual`
(the unit fails exactly when the two values differ); `unittest` itself is
not part of the repository. -/
def runUnit (call : List String → String → Int) (binary dir : String)
    (m : TestMethod) : UnitResult × List (List String) :=
  match m.skipReason with
  | some _ => (UnitResult.skipres, [])
  | none =>
    let cmd := run_script_cmd binary m.spec.script m.spec.nprocs m.spec.nthreads true m.spec.launcher
    (if call cmd dir = 0 then UnitResult.passed else UnitResult.failed, [cmd])

/-- `SkipTest(cls, func_name, reason)` replaces the attribute `func_name` of
the class by its `unittest.skip(reason)`-wrapped version, i.e. marks that
method as skipped. The class is embedded as its list of (method name,
method) pairs. -/
def SkipTest (cls : List (String × TestMethod)) (func_name reason : String) :
    List (String × TestMethod) :=
  cls.map (fun e => if e.1 = func_name then (e.1, ⟨some reason, e.2.spec⟩) else e)

/-- A directory entry of the examples root, as seen by the discovery loop:
its name, whether it is a directory, and — when it is — the names of the
entries one level inside it (`glob` does not recurse past that level). -/
structure DirEntry where
  name : String
  isDir : Bool
  files : List String
deriving DecidableEq, Repr

/-- The module-level discovery loop shared (up to the skip-list constant) by
`test/testrunner/test_examples.py` and `testing/test_examples.py`: for every
entry of `os.listdir(examples_dir)`, skip it when its name is in the
skip-list; otherwise, when the name is all-lowercase (`str.islower`) and the
entry is a directory, emit a group whose scripts are the basenames of the
entries matching `glob(path, 'in.*')`, i.e. those whose name starts with
`"in."`. -/
def discoverGroups (skip : List String) (entries : List DirEntry) :
    List (String × List String) :=
  entries.filterMap (fun e =>
    if e.name ∈ skip then none
    else if pyIslower e.name && e.isDir then
      some (e.name, e.files.filter (fun f => pyStartswith f "in."))
    else none)

end Testrunner

namespace Testing

/-!
Embedding of `testing/test_examples.py`, the earlier two-mode variant of the
synthesizer. It derives method names by the same
`'_'.join(script_name.split('.')[1:])` scheme but generates only the serial
and parallel (`nprocs=4`) methods, and its `run_script` takes no
`nthreads`/`launcher` arguments.
-/

/-- The two execution modes of the `testing/test_examples.py` synthesizer. -/
inductive Mode
  | serial
  | parallel
deriving DecidableEq, Repr

/-- The method-name suffix of each mode. -/
def modeSuffix : Mode → String
  | Mode.serial => "_serial"
  | Mode.parallel => "_parallel"

/-- The generated method name for a (script, mode) pair. -/
def methodKey (script_name : String) (m : Mode) : String :=
  "test_" ++ Testrunner.scriptBase script_name ++ modeSuffix m

/-- The `run_script` arguments of a generated closure in this variant:
the script and the `nprocs` count (serial uses the default `nprocs=1`). -/
structure UnitSpec where
  script : String
  nprocs : Nat
deriving DecidableEq, Repr

/-- The `run_script` arguments used by the generated method of each mode. -/
def unitSpec (script_name : String) : Mode → UnitSpec
  | Mode.serial => ⟨script_name, 1⟩
  | Mode.parallel => ⟨script_name, 4⟩

/-- The method-dictionary entries added per script by the loop of
`CreateLAMMPSTestCase` in `testing/test_examples.py`. -/
def unitsForScript (script_name : String) : List (String × UnitSpec) :=
  [Mode.serial, Mode.parallel].map (fun m => (methodKey script_name m, unitSpec script_name m))

/-- The sequence of test-method assignments of the loop over `script_names`
(excluding the `setUp` entry). -/
def createMethods : List String → List (String × UnitSpec)
  | [] => []
  | s :: rest => unitsForScript s ++ createMethods rest

/-- The argument vector built by `LAMMPSTestCase.run_script` in
`testing/test_examples.py`. -/
def run_script_cmd (binary script_name : String) (nprocs : Nat)
    (screen : Bool) : List String :=
  let output_options := if screen then [] else ["-screen", "none"]
  if nprocs > 1 then
    ["mpirun", "-np", toString nprocs, binary, "-in", script_name] ++ output_options
  else
    [binary, "-in", script_name] ++ output_options

end Testing

namespace LammpsTesting

/-!
Embedding of `LAMMPSTestCase.run_script` from
`test/testrunner/lammps_testing.py`. Besides building the argument vector,
this variant opens two capture files `stdout.log` and `stderr.log` inside
`self.cwd` for writing, redirects the child's streams into them, and reads
them back; the embedding records those paths in `filesWritten`.
-/

/-- The `output_options` list: `["-screen", "none"]` unless `screen`, plus
`["-log", log]` when `log` is truthy (Python `if log:` is false both for
`None` and for the empty string). -/
def outputOptions (screen : Bool) (log : Option String) : List String :=
  (if screen then [] else ["-screen", "none"]) ++
    (match log with
     | some l => if l = "" then [] else ["-log", l]
     | none => [])

/-- The full argument vector `mpi_options + exe + lammps_options` built by
`run_script`: `-sf omp` is appended when `nthreads > 1 or force_openmp`;
the `mpirun` prefix is used when `nprocs > 1 or force_mpi`; and only in the
`elif` case (no `mpirun` prefix but OpenMP requested) is
`-pk omp <nthreads>` appended. -/
def run_script_cmd (binary script_name : String) (nprocs nthreads : Nat)
    (screen : Bool) (log : Option String) (launcher : List String)
    (force_openmp force_mpi : Bool) : List String :=
  let exe := launcher ++ [binary]
  let lammps_options0 := ["-in", script_name] ++ outputOptions screen log
  let lammps_options1 :=
    if nthreads > 1 || force_openmp then lammps_options0 ++ ["-sf", "omp"]
    else lammps_options0
  let mpi_options :=
    if nprocs > 1 || force_mpi then
      ["mpirun", "-np", toString nprocs, "-x", "OMP_NUM_THREADS=" ++ toString nthreads]
    else []
  let lammps_options :=
    if nprocs > 1 || force_mpi then lammps_options1
    else if nthreads > 1 || force_openmp then
      lammps_options1 ++ ["-pk", "omp", toString nthreads]
    else lammps_options1
  mpi_options ++ exe ++ lammps_options

/-- Result of a `run_script` call: the spawned argument vector, the working
directory, the paths this Python code itself opened for writing, and the
child's exit code. -/
structure RunResult where
  command : List String
  cwd : String
  filesWritten : List String
  retcode : Int
deriving Repr

/-- `run_script` itself: spawns the command in `self.cwd` with both streams
redirected into `stdout.log` / `stderr.log` files created inside `self.cwd`,
and returns the exit code. -/
def run_script (call : List String → String → Int) (binary cwd script_name : String)
    (nprocs nthreads : Nat) (screen : Bool) (log : Option String)
    (launcher : List String) (force_openmp force_mpi : Bool) : RunResult :=
  let cmd := run_script_cmd binary script_name nprocs nthreads screen log launcher force_openmp force_mpi
  { command := cmd
    cwd := cwd
    filesWritten := [pathJoin cwd "stdout.log", pathJoin cwd "stderr.log"]
    retcode := call cmd cwd }

/-- A path lies strictly inside a directory when it extends the directory
with a separator. -/
def pathInside (dir p : String) : Bool :=
  pyStartswith p (dir ++ "/")

end LammpsTesting

namespace GenStyles

/-!
Embedding of `tools/gen_styles.py`. The preprocessor output is external
input; it enters the embedding as the list of lines of
`subprocess.check_output(...).decode().splitlines()`.
-/

/-- Python `line.strip('"')`: remove every leading and trailing `"`. -/
def stripQuotes (s : String) : String :=
  ⟨((s.data.dropWhile (fun c => c = '"')).reverse.dropWhile (fun c => c = '"')).reverse⟩

/-- A line of preprocessor output is kept unless it is empty (`not line`)
or starts with `#`. -/
def keepLine (line : String) : Bool :=
  !(line = "" || pyStartswith line "#")

/-- The loop of `get_styles`: walk the output lines, `continue` past empty
lines and `#` lines, and append `line.strip('"')` for the rest. -/
def collectStyles : List String → List String
  | [] => []
  | l :: ls =>
    if l = "" || pyStartswith l "#" then collectStyles ls
    else stripQuotes l :: collectStyles ls

/-- `get_styles` as a function of the preprocessor output lines:
the collected style names, sorted ascending (`sorted(styles)`; Python's
stable sort and any sort agree on `String`'s linear order). -/
def get_styles (outputLines : List String) : List String :=
  List.insertionSort (fun a b => a ≤ b) (collectStyles outputLines)

/-- The four category names the module-level code processes, in order. -/
def styleCategories : List String :=
  ["pair", "fix", "dump", "compute"]

/-- The module-level writes: for each category the file
`<category>_styles.json` receives the JSON dump of `get_styles(category)`.
`pre` maps a category to the lines of its preprocessor output; the content
is embedded as the list of style names serialized by `json.dump`. -/
def jsonOutputs (pre : String → List String) : List (String × List String) :=
  styleCategories.map (fun cat => (cat ++ "_styles.json", get_styles (pre cat)))

end GenStyles

/-! ## Helper lemmas -/

/-- Joining a directory with a file name yields a path inside the directory. -/
theorem pyStartswith_pathJoin (cwd f : String) :
    pyStartswith (pathJoin cwd f) (cwd ++ "/") = true := by
  have h : (cwd ++ "/").data <+: (pathJoin cwd f).data := by
    simp [pathJoin]
  simpa [pyStartswith, List.isPrefixOf_iff_prefix] using h

/-- Membership characterization of the discovery loop's output. -/
theorem mem_discoverGroups {skip : List String} {entries : List Testrunner.DirEntry}
    {g : String} {scripts : List String} :
    (g, scripts) ∈ Testrunner.discoverGroups skip entries ↔
      ∃ e ∈ entries, e.name = g ∧ g ∉ skip ∧ pyIslower g = true ∧ e.isDir = true ∧
        scripts = e.files.filter (fun f => pyStartswith f "in.") := by
  unfold Testrunner.discoverGroups
  rw [List.mem_filterMap]
  constructor
  · rintro ⟨e, he, hf⟩
    by_cases h1 : e.name ∈ skip
    · simp [h1] at hf
    · by_cases h2 : (pyIslower e.name && e.isDir) = true
      · rw [if_neg h1, if_pos h2] at hf
        obtain ⟨hl, hd⟩ := Bool.and_eq_true_iff.mp h2
        obtain ⟨hg, hs⟩ := Prod.mk.injEq .. ▸ Option.some.injEq .. ▸ hf
        exact ⟨e, he, hg, hg ▸ h1, hg ▸ hl, hd, hs.symm⟩
      · rw [if_neg h1, if_neg h2] at hf
        cases hf
  · rintro ⟨e, he, rfl, h1, h2, h3, rfl⟩
    exact ⟨e, he, by rw [if_neg h1, if_pos (by simp [h2, h3])]⟩

/-- Every element of `outputOptions` is one of the fixed flags or the `log`
value. -/
theorem mem_outputOptions {x : String} {screen : Bool} {log : Option String}
    (h : x ∈ LammpsTesting.outputOptions screen log) :
    x = "-screen" ∨ x = "none" ∨ x = "-log" ∨ ∃ l, log = some l ∧ x = l := by
  unfold LammpsTesting.outputOptions at h
  cases screen <;> rcases log with _ | l <;> simp at h
  · rcases h with h | h
    · exact Or.inl h
    · exact Or.inr (Or.inl h)
  · rcases h with h | h
    · exact Or.inl h
    · rcases h with h | h
      · exact Or.inr (Or.inl h)
      · by_cases hl : l = ""
        · simp [hl] at h
        · simp [hl] at h
          rcases h with h | h
          · exact Or.inr (Or.inr (Or.inl h))
          · exact Or.inr (Or.inr (Or.inr ⟨l, rfl, h⟩))
  · by_cases hl : l = ""
    · simp [hl] at h
    · simp [hl] at h
      rcases h with h | h
      · exact Or.inr (Or.inr (Or.inl h))
      · exact Or.inr (Or.inr (Or.inr ⟨l, rfl, h⟩))

/-! ## Claims -/

/-- C3: a generated (non-skip-marked) test unit reports failure exactly when
the spawned child process exits with a non-zero code, and reports success
exactly when the exit code is 0 — in particular any run whose subprocess
returns exit code 0 makes the unit pass. -/
theorem C3_unit_fails_iff_nonzero_exit (call : List String → String → Int)
    (binary dir : String) (spec : Testrunner.UnitSpec) :
    ((Testrunner.runUnit call binary dir ⟨none, spec⟩).1 = Testrunner.UnitResult.failed ↔
        call (Testrunner.run_script_cmd binary spec.script spec.nprocs spec.nthreads true spec.launcher) dir ≠ 0) ∧
    ((Testrunner.runUnit call binary dir ⟨none, spec⟩).1 = Testrunner.UnitResult.passed ↔
        call (Testrunner.run_script_cmd binary spec.script spec.nprocs spec.nthreads true spec.launcher) dir = 0) := by
  simp only [Testrunner.runUnit]
  constructor <;> split <;> simp_all

/-- C4: a test unit marked through `SkipTest` carries the skip reason, and
executing it spawns no subprocess and reports the skipped outcome. -/
theorem C4_skip_marked_never_spawns (call : List String → String → Int)
    (binary dir : String) (cls : List (String × Testrunner.TestMethod))
    (func_name reason : String) (e : String × Testrunner.TestMethod)
    (he : e ∈ Testrunner.SkipTest cls func_name reason) (hn : e.1 = func_name) :
    e.2.skipReason = some reason ∧
    (Testrunner.runUnit call binary dir e.2).2 = [] ∧
    (Testrunner.runUnit call binary dir e.2).1 = Testrunner.UnitResult.skipres := by
  obtain ⟨e0, he0, hmap⟩ := List.mem_map.mp he
  have hskip : e.2.skipReason = some reason := by
    by_cases h : e0.1 = func_name
    · rw [if_pos h] at hmap
      rw [← hmap]
    · rw [if_neg h] at hmap
      rw [← hmap] at hn
      exact absurd hn h
  refine ⟨hskip, ?_, ?_⟩ <;> simp [Testrunner.runUnit, hskip]

/-- C9: a directory-entry name containing no cased character (e.g. a name
made only of digits) fails Python's `str.islower` — even though it contains
no uppercase letter — and is therefore excluded from the generated groups. -/
theorem C9_uncased_name_excluded (skip : List String) (entries : List Testrunner.DirEntry)
    (nm : String) (h : nm.data.all (fun c => !c.isAlpha) = true) :
    pyIslower nm = false ∧ nm ∉ (Testrunner.discoverGroups skip entries).map Prod.fst := by
  have hlow : pyIslower nm = false := by
    unfold pyIslower
    have hany : nm.data.any (fun c => c.isAlpha) = false := by
      rw [List.any_eq_false]
      intro c hc
      simpa using List.all_eq_true.mp h c hc
    simp [hany]
  refine ⟨hlow, fun hmem => ?_⟩
  obtain ⟨⟨g, scripts⟩, hg, hfst⟩ := List.mem_map.mp hmem
  obtain ⟨e, -, -, -, hl, -, -⟩ := mem_discoverGroups.mp hg
  rw [show g = nm from hfst, hlow] at hl
  cases hl

/-- C10: with `force_openmp` and `force_mpi` at their default `True`, the
command built by `lammps_testing.run_script` is, for every `nprocs` and
`nthreads`, prefixed by `mpirun -np <nprocs> -x OMP_NUM_THREADS=<nthreads>`,
its LAMMPS option list always ends with `-sf omp`, and the
`-pk omp <nthreads>` option is never part of that option list. -/
theorem C10_force_flags_command (call : List String → String → Int)
    (binary cwd script_name : String) (nprocs nthreads : Nat) (screen : Bool)
    (log : Option String) (launcher : List String)
    (h1 : script_name ≠ "-pk") (h2 : ∀ l, log = some l → l ≠ "-pk") :
    (LammpsTesting.run_script call binary cwd script_name nprocs nthreads screen log launcher true true).command =
      ["mpirun", "-np", toString nprocs, "-x", "OMP_NUM_THREADS=" ++ toString nthreads] ++
        launcher ++ [binary] ++
        (["-in", script_name] ++ LammpsTesting.outputOptions screen log ++ ["-sf", "omp"]) ∧
    "-pk" ∉ ["-in", script_name] ++ LammpsTesting.outputOptions screen log ++ ["-sf", "omp"] := by
  constructor
  · simp [LammpsTesting.run_script, LammpsTesting.run_script_cmd]
  · intro hmem
    simp only [List.mem_append, List.mem_cons, List.mem_singleton, List.not_mem_nil, or_false] at hmem
    rcases hmem with ((h | h) | h) | h | h
    · exact absurd h (by decide)
    · exact h1 h.symm
    · rcases mem_outputOptions h with h | h | h | ⟨l, hl, h⟩
      · exact absurd h (by decide)
      · exact absurd h (by decide)
      · exact absurd h (by decide)
      · exact h2 l hl (h ▸ rfl)
    · exact absurd h (by decide)
    · exact absurd h (by decide)

/-- C6 counterexample: running a unit through `lammps_testing.run_script`
does write inside the group's working directory — the capture file
`stdout.log` is created there. -/
theorem C6_counterexample :
    "/examples/melt/stdout.log" ∈
      (LammpsTesting.run_script (fun _ _ => 0) "/bin/lmp" "/examples/melt" "in.melt"
        1 1 true none [] true true).filesWritten ∧
    LammpsTesting.pathInside "/examples/melt" "/examples/melt/stdout.log" = true := by
  decide

/-- C6 amended: the only files a unit's `run_script`
(`test/testrunner/lammps_testing.py`) writes are the two capture files
`stdout.log` and `stderr.log` inside the group's working directory; both lie
inside that directory. -/
theorem C6_amended_writes_only_logs (call : List String → String → Int)
    (binary cwd script_name : String) (nprocs nthreads : Nat) (screen : Bool)
    (log : Option String) (launcher : List String) (fo fm : Bool) (p : String)
    (hp : p ∈ (LammpsTesting.run_script call binary cwd script_name nprocs
        nthreads screen log launcher fo fm).filesWritten) :
    LammpsTesting.pathInside cwd p = true ∧
    (p = pathJoin cwd "stdout.log" ∨ p = pathJoin cwd "stderr.log") := by
  simp only [LammpsTesting.run_script, List.mem_cons, List.mem_singleton,
    List.not_mem_nil, or_false] at hp
  rcases hp with rfl | rfl
  · exact ⟨by simpa [LammpsTesting.pathInside] using pyStartswith_pathJoin cwd "stdout.log",
      Or.inl rfl⟩
  · exact ⟨by simpa [LammpsTesting.pathInside] using pyStartswith_pathJoin cwd "stderr.log",
      Or.inr rfl⟩

/-- The `get_styles` loop keeps exactly the non-empty lines not starting
with `#`, stripped of surrounding double quotes. -/
theorem collectStyles_eq (ls : List String) :
    GenStyles.collectStyles ls = (ls.filter GenStyles.keepLine).map GenStyles.stripQuotes := by
  induction ls with
  | nil => rfl
  | cons l ls ih =>
    by_cases h : (decide (l = "") || pyStartswith l "#") = true
    · simp [GenStyles.collectStyles, GenStyles.keepLine, h, ih]
    · simp [GenStyles.collectStyles, GenStyles.keepLine, h, ih]

/-- C8: for every style category, the utility emits the file
`<category>_styles.json` holding the style names obtained from the
preprocessor output by keeping exactly the non-empty lines that do not start
with `#`, stripping surrounding double quotes, and sorting ascending. -/
theorem C8_style_json_pipeline (pre : String → List String) (cat : String)
    (hcat : cat ∈ GenStyles.styleCategories) :
    (cat ++ "_styles.json", GenStyles.get_styles (pre cat)) ∈ GenStyles.jsonOutputs pre ∧
    (GenStyles.get_styles (pre cat)).Perm
      (((pre cat).filter GenStyles.keepLine).map GenStyles.stripQuotes) ∧
    (GenStyles.get_styles (pre cat)).Sorted (fun a b => a ≤ b) := by
  refine ⟨List.mem_map.mpr ⟨cat, hcat, rfl⟩, ?_, ?_⟩
  · rw [← collectStyles_eq]
    exact List.perm_insertionSort _ _
  · exact List.sorted_insertionSort _ _

/-- Every mode occurs in `allModes`. -/
theorem mem_allModes (m : Testrunner.Mode) : m ∈ Testrunner.allModes := by
  cases m <;> decide

/-- Membership characterization of the generated method list: its entries
are exactly one per (script, mode) pair. -/
theorem mem_createMethods {lammps_dir : String} {scripts : List String}
    {e : String × Testrunner.UnitSpec} :
    e ∈ Testrunner.createMethods lammps_dir scripts ↔
      ∃ s ∈ scripts, ∃ m, e = (Testrunner.methodKey s m, Testrunner.unitSpec lammps_dir s m) := by
  induction scripts with
  | nil => simp [Testrunner.createMethods]
  | cons a rest ih =>
    simp only [Testrunner.createMethods, List.mem_append, ih, Testrunner.unitsForScript,
      List.mem_map, List.mem_cons]
    constructor
    · rintro (⟨m, -, rfl⟩ | ⟨s, hs, m, rfl⟩)
      · exact ⟨a, Or.inl rfl, m, rfl⟩
      · exact ⟨s, Or.inr hs, m, rfl⟩
    · rintro ⟨s, hs | hs, m, rfl⟩
      · subst hs
        exact Or.inl ⟨m, mem_allModes m, rfl⟩
      · exact Or.inr ⟨s, hs, m, rfl⟩

/-- Key-level version of `mem_createMethods`. -/
theorem mem_createMethods_keys {lammps_dir k : String} {scripts : List String} :
    k ∈ (Testrunner.createMethods lammps_dir scripts).map Prod.fst ↔
      ∃ s ∈ scripts, ∃ m, k = Testrunner.methodKey s m := by
  rw [List.mem_map]
  constructor
  · rintro ⟨e, he, rfl⟩
    obtain ⟨s, hs, m, rfl⟩ := mem_createMethods.mp he
    exact ⟨s, hs, m, rfl⟩
  · rintro ⟨s, hs, m, rfl⟩
    exact ⟨_, mem_createMethods.mpr ⟨s, hs, m, rfl⟩, rfl⟩

/-- C2: for every script of the group and every mode, the synthesizer
generates a method whose name is derived from the script's dot-suffix
tokens, and the full unit name — generated class name dot method name —
is the concatenation of the group-derived class name, the underscore-joined
suffix tokens, and the mode suffix. -/
theorem C2_unit_name_shape (lammps_dir group : String) (scripts : List String)
    (s : String) (m : Testrunner.Mode) (hs : s ∈ scripts) :
    Testrunner.methodKey s m ∈ (Testrunner.createMethods lammps_dir scripts).map Prod.fst ∧
    Testrunner.createClassName group ++ "." ++ Testrunner.methodKey s m =
      (pyTitle group ++ "TestCase" ++ ".") ++
        ("test_" ++ pyJoin "_" ((pySplit '.' s).drop 1)) ++ Testrunner.modeSuffix m := by
  constructor
  · exact mem_createMethods_keys.mpr ⟨s, hs, m, rfl⟩
  · simp [Testrunner.createClassName, Testrunner.methodKey, Testrunner.scriptBase,
      String.append_assoc]

/-- C5: when the listing has no duplicate names, a group is generated for an
entry exactly when its name passes `str.islower`, is not in the skip-list,
and the entry is a directory; and each generated group's scripts are exactly
the one-level-deep entries whose name matches the `in.*` prefix pattern. -/
theorem C5_discovery (skip : List String) (entries : List Testrunner.DirEntry)
    (hnd : (entries.map Testrunner.DirEntry.name).Nodup) :
    (∀ e ∈ entries,
      ((e.name, e.files.filter (fun f => pyStartswith f "in.")) ∈
          Testrunner.discoverGroups skip entries ↔
        (pyIslower e.name = true ∧ e.name ∉ skip ∧ e.isDir = true))) ∧
    (∀ g scripts, (g, scripts) ∈ Testrunner.discoverGroups skip entries →
      pyIslower g = true ∧ g ∉ skip ∧
      ∃ e ∈ entries, e.name = g ∧ e.isDir = true ∧
        scripts = e.files.filter (fun f => pyStartswith f "in.")) := by
  constructor
  · intro e he
    constructor
    · intro hmem
      obtain ⟨e2, he2, hname, hskip, hlow, hdir, -⟩ := mem_discoverGroups.mp hmem
      have heq : e2 = e := List.inj_on_of_nodup_map hnd he2 he hname
      subst heq
      exact ⟨hlow, hskip, hdir⟩
    · rintro ⟨hlow, hskip, hdir⟩
      exact mem_discoverGroups.mpr ⟨e, he, rfl, hskip, hlow, hdir, rfl⟩
  · intro g scripts hmem
    obtain ⟨e, he, rfl, hskip, hlow, hdir, hfiles⟩ := mem_discoverGroups.mp hmem
    exact ⟨hlow, hskip, e, he, rfl, hdir, hfiles⟩

/-- The script stored in a generated unit's spec is the script of its
(script, mode) pair. -/
theorem unitSpec_script (lammps_dir s : String) (m : Testrunner.Mode) :
    (Testrunner.unitSpec lammps_dir s m).script = s := by
  cases m <;> rfl

/-- Likewise in the `testing/test_examples.py` variant. -/
theorem unitSpec_script2 (s : String) (m : Testing.Mode) :
    (Testing.unitSpec s m).script = s := by
  cases m <;> rfl

/-- No unit is generated for a script outside the script list. -/
theorem filter_createMethods_not_mem {lammps_dir s : String} {scripts : List String}
    (h : s ∉ scripts) :
    (Testrunner.createMethods lammps_dir scripts).filter (fun e => e.2.script == s) = [] := by
  rw [List.filter_eq_nil_iff]
  intro e he
  obtain ⟨s2, hs2, m, rfl⟩ := mem_createMethods.mp he
  simp only [unitSpec_script, beq_iff_eq]
  exact fun heq => h (heq ▸ hs2)

/-- Membership characterization for the `testing/test_examples.py` variant's
method list. -/
theorem mem_createMethods2 {scripts : List String} {e : String × Testing.UnitSpec} :
    e ∈ Testing.createMethods scripts ↔
      ∃ s ∈ scripts, ∃ m, e = (Testing.methodKey s m, Testing.unitSpec s m) := by
  induction scripts with
  | nil => simp [Testing.createMethods]
  | cons a rest ih =>
    simp only [Testing.createMethods, List.mem_append, ih, Testing.unitsForScript,
      List.mem_map, List.mem_cons]
    constructor
    · rintro (⟨m, -, rfl⟩ | ⟨s, hs, m, rfl⟩)
      · exact ⟨a, Or.inl rfl, m, rfl⟩
      · exact ⟨s, Or.inr hs, m, rfl⟩
    · rintro ⟨s, hs | hs, m, rfl⟩
      · subst hs
        exact Or.inl ⟨m, by cases m <;> decide, rfl⟩
      · exact Or.inr ⟨s, hs, m, rfl⟩

/-- No unit is generated for a script outside the script list
(`testing/test_examples.py` variant). -/
theorem filter_createMethods2_not_mem {s : String} {scripts : List String}
    (h : s ∉ scripts) :
    (Testing.createMethods scripts).filter (fun e => e.2.script == s) = [] := by
  rw [List.filter_eq_nil_iff]
  intro e he
  obtain ⟨s2, hs2, m, rfl⟩ := mem_createMethods2.mp he
  simp only [unitSpec_script2, beq_iff_eq]
  exact fun heq => h (heq ▸ hs2)

/-- C7 counterexample: the `testing/test_examples.py` variant of the
synthesizer (cited by the claim) generates two units per script — serial
and parallel only — not four. -/
theorem C7_counterexample :
    (Testing.createMethods ["in.melt"]).map Prod.fst =
      ["test_melt_serial", "test_melt_parallel"] ∧
    ¬ (Testing.createMethods ["in.melt"]).length = 4 := by
  decide

/-- C7 amended: for every script of a duplicate-free script list, the
`test/testrunner/test_examples.py` synthesizer produces exactly one named
unit per (script, mode) pair with mode ranging over serial,
parallel (`nprocs=4`), threaded (`nthreads=4`) and memory-checked
(valgrind) — four units for the script — while the superseded
`testing/test_examples.py` variant produces exactly the serial and
parallel (`nprocs=4`) units. -/
theorem C7_amended (lammps_dir : String) (scripts : List String) (s : String)
    (hnd : scripts.Nodup) (hs : s ∈ scripts) :
    (Testrunner.createMethods lammps_dir scripts).filter (fun e => e.2.script == s) =
      [(Testrunner.methodKey s Testrunner.Mode.serial, ⟨s, 1, 1, []⟩),
       (Testrunner.methodKey s Testrunner.Mode.parallel, ⟨s, 4, 1, []⟩),
       (Testrunner.methodKey s Testrunner.Mode.parallel_omp, ⟨s, 1, 4, []⟩),
       (Testrunner.methodKey s Testrunner.Mode.serial_valgrind,
         ⟨s, 1, 1, Testrunner.valgrindLauncher lammps_dir (Testrunner.scriptBase s)⟩)] ∧
    (Testing.createMethods scripts).filter (fun e => e.2.script == s) =
      [(Testing.methodKey s Testing.Mode.serial, ⟨s, 1⟩),
       (Testing.methodKey s Testing.Mode.parallel, ⟨s, 4⟩)] := by
  induction scripts with
  | nil => cases hs
  | cons a rest ih =>
    obtain ⟨ha, hndr⟩ := List.nodup_cons.mp hnd
    rcases List.mem_cons.mp hs with rfl | hsr
    · have h4 : (Testrunner.createMethods lammps_dir rest).filter
          (fun e => e.2.script == s) = [] :=
        filter_createMethods_not_mem ha
      have h2 : (Testing.createMethods rest).filter (fun e => e.2.script == s) = [] :=
        filter_createMethods2_not_mem ha
      constructor
      · simp [Testrunner.createMethods, List.filter_append, h4,
          Testrunner.unitsForScript, Testrunner.allModes, Testrunner.unitSpec]
      · simp [Testing.createMethods, List.filter_append, h2,
          Testing.unitsForScript, Testing.unitSpec]
    · have hne : a ≠ s := fun h => ha (h ▸ hsr)
      have h4 : (Testrunner.unitsForScript lammps_dir a).filter
          (fun e => e.2.script == s) = [] := by
        rw [List.filter_eq_nil_iff]
        intro e he
        obtain ⟨m, -, rfl⟩ := List.mem_map.mp he
        simp only [unitSpec_script, beq_iff_eq]
        exact fun h => hne h
      have h2 : (Testing.unitsForScript a).filter (fun e => e.2.script == s) = [] := by
        rw [List.filter_eq_nil_iff]
        intro e he
        obtain ⟨m, -, rfl⟩ := List.mem_map.mp he
        simp only [unitSpec_script2, beq_iff_eq]
        exact fun h => hne h
      obtain ⟨ih4, ih2⟩ := ih hndr hsr
      constructor
      · simp [Testrunner.createMethods, List.filter_append, h4, ih4]
      · simp [Testing.createMethods, List.filter_append, h2, ih2]

/-- C1 counterexample: the distinct discovered script names `in.a.b` and
`in.a_b` derive the same underscore-joined name, so their generated
test-method names collide. -/
theorem C1_counterexample :
    Testrunner.methodKey "in.a.b" Testrunner.Mode.serial =
      Testrunner.methodKey "in.a_b" Testrunner.Mode.serial ∧
    ("in.a.b" : String) ≠ "in.a_b" ∧
    ¬ ((Testrunner.createMethods "/lammps" ["in.a.b", "in.a_b"]).map Prod.fst).Nodup := by
  decide

/-- No mode suffix is a suffix of a different mode's suffix. -/
theorem modeSuffix_suffix_eq {m1 m2 : Testrunner.Mode}
    (h : (Testrunner.modeSuffix m1).data <:+ (Testrunner.modeSuffix m2).data) :
    m1 = m2 := by
  cases m1 <;> cases m2 <;> first | rfl | exact absurd h (by decide)

/-- A generated method key determines the script's derived name and the
mode. -/
theorem methodKey_inj {s1 s2 : String} {m1 m2 : Testrunner.Mode}
    (h : Testrunner.methodKey s1 m1 = Testrunner.methodKey s2 m2) :
    Testrunner.scriptBase s1 = Testrunner.scriptBase s2 ∧ m1 = m2 := by
  have hd : ("test_".data ++ (Testrunner.scriptBase s1).data) ++ (Testrunner.modeSuffix m1).data =
      ("test_".data ++ (Testrunner.scriptBase s2).data) ++ (Testrunner.modeSuffix m2).data := by
    simpa [Testrunner.methodKey] using congrArg String.data h
  rw [List.append_assoc, List.append_assoc] at hd
  have hd2 := List.append_cancel_left hd
  have hm : m1 = m2 := by
    rcases List.append_eq_append_iff.mp hd2 with ⟨a, -, ha⟩ | ⟨c, -, hc⟩
    · exact (modeSuffix_suffix_eq ⟨a, ha.symm⟩).symm
    · exact modeSuffix_suffix_eq ⟨c, hc.symm⟩
  subst hm
  exact ⟨String.ext (List.append_cancel_right hd2), rfl⟩

/-- C1 amended: whenever the underscore-joined dot-suffix names derived from
the scripts are pairwise distinct, all generated test-method names of the
suite are pairwise distinct. -/
theorem C1_amended (lammps_dir : String) (scripts : List String)
    (h : (scripts.map Testrunner.scriptBase).Nodup) :
    ((Testrunner.createMethods lammps_dir scripts).map Prod.fst).Nodup := by
  induction scripts with
  | nil => simp [Testrunner.createMethods]
  | cons a rest ih =>
    simp only [List.map_cons, List.nodup_cons] at h
    obtain ⟨ha, hrest⟩ := h
    have hkeys : (Testrunner.unitsForScript lammps_dir a).map Prod.fst =
        Testrunner.allModes.map (fun m => Testrunner.methodKey a m) := by
      simp [Testrunner.unitsForScript, List.map_map]
    simp only [Testrunner.createMethods, List.map_append]
    refine List.Nodup.append ?_ (ih hrest) ?_
    · rw [hkeys]
      refine List.Nodup.map ?_ (by decide)
      intro m1 m2 hm
      exact (methodKey_inj hm).2
    · intro k hk1 hk2
      rw [hkeys] at hk1
      obtain ⟨m1, -, rfl⟩ := List.mem_map.mp hk1
      obtain ⟨s2, hs2, m2, heq⟩ := mem_createMethods_keys.mp hk2
      exact ha (List.mem_map.mpr ⟨s2, hs2, ((methodKey_inj heq).1).symm⟩)

/-! ## Witnesses -/

/-- Witness for `C1_amended` at two scripts with distinct derived names. -/
theorem C1_amended_witness :
    ((["in.melt", "in.flow.couette"].map Testrunner.scriptBase).Nodup) ∧
    ((Testrunner.createMethods "/lammps" ["in.melt", "in.flow.couette"]).map Prod.fst).Nodup :=
  ⟨by decide, C1_amended "/lammps" ["in.melt", "in.flow.couette"] (by decide)⟩

/-- Witness for `C2_unit_name_shape` on the `flow` group. -/
theorem C2_unit_name_witness :
    ("in.flow.couette" ∈ ["in.flow.couette", "in.flow.pois"]) ∧
    (Testrunner.methodKey "in.flow.couette" Testrunner.Mode.parallel ∈
        (Testrunner.createMethods "/lammps" ["in.flow.couette", "in.flow.pois"]).map Prod.fst ∧
      Testrunner.createClassName "flow" ++ "." ++
          Testrunner.methodKey "in.flow.couette" Testrunner.Mode.parallel =
        (pyTitle "flow" ++ "TestCase" ++ ".") ++
          ("test_" ++ pyJoin "_" ((pySplit '.' "in.flow.couette").drop 1)) ++
          Testrunner.modeSuffix Testrunner.Mode.parallel) :=
  ⟨by decide, C2_unit_name_shape "/lammps" "flow" ["in.flow.couette", "in.flow.pois"]
    "in.flow.couette" Testrunner.Mode.parallel (by decide)⟩

/-- Witness for `C4_skip_marked_never_spawns` on the skip-marked
`test_balance_bond_fast_parallel` unit. -/
theorem C4_skip_witness :
    (("test_balance_bond_fast_parallel",
        (⟨some "Crashes randomly", ⟨"in.balance.bond.fast", 4, 1, []⟩⟩ :
          Testrunner.TestMethod)).2.skipReason = some "Crashes randomly") ∧
    (Testrunner.runUnit (fun _ _ => 0) "/bin/lmp" "/lammps/examples/balance"
        ⟨some "Crashes randomly", ⟨"in.balance.bond.fast", 4, 1, []⟩⟩).2 = [] ∧
    (Testrunner.runUnit (fun _ _ => 0) "/bin/lmp" "/lammps/examples/balance"
        ⟨some "Crashes randomly", ⟨"in.balance.bond.fast", 4, 1, []⟩⟩).1 =
      Testrunner.UnitResult.skipres :=
  C4_skip_marked_never_spawns (fun _ _ => 0) "/bin/lmp" "/lammps/examples/balance"
    [("test_balance_bond_fast_parallel", ⟨none, ⟨"in.balance.bond.fast", 4, 1, []⟩⟩)]
    "test_balance_bond_fast_parallel" "Crashes randomly"
    ("test_balance_bond_fast_parallel",
      ⟨some "Crashes randomly", ⟨"in.balance.bond.fast", 4, 1, []⟩⟩)
    (by decide) rfl

/-- Witness for `C5_discovery` on a listing holding an eligible `melt`
directory and an ineligible `KIM` directory. -/
theorem C5_discovery_witness :
    ("melt", (["in.melt", "log.melt"] : List String).filter (fun f => pyStartswith f "in.")) ∈
        Testrunner.discoverGroups ["neb"]
          [⟨"melt", true, ["in.melt", "log.melt"]⟩, ⟨"KIM", true, ["in.kim"]⟩] ↔
      (pyIslower "melt" = true ∧ "melt" ∉ ["neb"] ∧ true = true) :=
  (C5_discovery ["neb"] [⟨"melt", true, ["in.melt", "log.melt"]⟩, ⟨"KIM", true, ["in.kim"]⟩]
      (by decide)).1 ⟨"melt", true, ["in.melt", "log.melt"]⟩ (by decide)

/-- Witness for `C6_amended_writes_only_logs` at the `stdout.log` capture
file. -/
theorem C6_amended_witness :
    LammpsTesting.pathInside "/ex/melt" "/ex/melt/stdout.log" = true ∧
    ("/ex/melt/stdout.log" = pathJoin "/ex/melt" "stdout.log" ∨
      "/ex/melt/stdout.log" = pathJoin "/ex/melt" "stderr.log") :=
  C6_amended_writes_only_logs (fun _ _ => 0) "/bin/lmp" "/ex/melt" "in.melt" 1 1 true none []
    true true "/ex/melt/stdout.log" (by decide)

/-- Witness for `C7_amended` on the singleton `melt` group. -/
theorem C7_amended_witness :
    (["in.melt"] : List String).Nodup ∧ ("in.melt" ∈ ["in.melt"]) ∧
    ((Testrunner.createMethods "/lammps" ["in.melt"]).filter
        (fun e => e.2.script == "in.melt") =
      [(Testrunner.methodKey "in.melt" Testrunner.Mode.serial, ⟨"in.melt", 1, 1, []⟩),
       (Testrunner.methodKey "in.melt" Testrunner.Mode.parallel, ⟨"in.melt", 4, 1, []⟩),
       (Testrunner.methodKey "in.melt" Testrunner.Mode.parallel_omp, ⟨"in.melt", 1, 4, []⟩),
       (Testrunner.methodKey "in.melt" Testrunner.Mode.serial_valgrind,
         ⟨"in.melt", 1, 1,
           Testrunner.valgrindLauncher "/lammps" (Testrunner.scriptBase "in.melt")⟩)] ∧
     (Testing.createMethods ["in.melt"]).filter (fun e => e.2.script == "in.melt") =
      [(Testing.methodKey "in.melt" Testing.Mode.serial, ⟨"in.melt", 1⟩),
       (Testing.methodKey "in.melt" Testing.Mode.parallel, ⟨"in.melt", 4⟩)]) :=
  ⟨by decide, by decide,
    C7_amended "/lammps" ["in.melt"] "in.melt" (by decide) (by decide)⟩

/-- Witness for `C8_style_json_pipeline` on the `pair` category. -/
theorem C8_style_witness :
    ("pair" ∈ GenStyles.styleCategories) ∧
    (("pair" ++ "_styles.json",
        GenStyles.get_styles ["\"lj/cut\"", "# 1 \"styles.cpp\"", "", "\"eam\""]) ∈
        GenStyles.jsonOutputs (fun _ => ["\"lj/cut\"", "# 1 \"styles.cpp\"", "", "\"eam\""]) ∧
      (GenStyles.get_styles ["\"lj/cut\"", "# 1 \"styles.cpp\"", "", "\"eam\""]).Perm
        (((["\"lj/cut\"", "# 1 \"styles.cpp\"", "", "\"eam\""] : List String).filter
            GenStyles.keepLine).map GenStyles.stripQuotes) ∧
      (GenStyles.get_styles ["\"lj/cut\"", "# 1 \"styles.cpp\"", "", "\"eam\""]).Sorted
        (fun a b => a ≤ b)) :=
  ⟨by decide,
    C8_style_json_pipeline (fun _ => ["\"lj/cut\"", "# 1 \"styles.cpp\"", "", "\"eam\""])
      "pair" (by decide)⟩

/-- Witness for `C9_uncased_name_excluded` at the digit-only name `123`. -/
theorem C9_uncased_witness :
    ("123".data.all (fun c => !c.isAlpha) = true) ∧
    (pyIslower "123" = false ∧
      "123" ∉ (Testrunner.discoverGroups []
        [⟨"123", true, ["in.x"]⟩, ⟨"melt", true, ["in.melt"]⟩]).map Prod.fst) :=
  ⟨by decide, C9_uncased_name_excluded []
    [⟨"123", true, ["in.x"]⟩, ⟨"melt", true, ["in.melt"]⟩] "123" (by decide)⟩

/-- Witness for `C10_force_flags_command` at `nprocs=4`, `nthreads=2`. -/
theorem C10_force_flags_witness :
    (("in.melt" : String) ≠ "-pk") ∧
    ((LammpsTesting.run_script (fun _ _ => 0) "/bin/lmp" "/ex" "in.melt" 4 2 false none []
        true true).command =
      ["mpirun", "-np", toString 4, "-x", "OMP_NUM_THREADS=" ++ toString 2] ++
        [] ++ ["/bin/lmp"] ++
        (["-in", "in.melt"] ++ LammpsTesting.outputOptions false none ++ ["-sf", "omp"]) ∧
     "-pk" ∉ ["-in", "in.melt"] ++ LammpsTesting.outputOptions false none ++ ["-sf", "omp"]) :=
  ⟨by decide, C10_force_flags_command (fun _ _ => 0) "/bin/lmp" "/ex" "in.melt" 4 2 false none []
    (by decide) (fun l h => nomatch h)⟩
